import Mathlib

/-!
# Verification of the `confirm-env` environment-variable confirmation chain

Shallow embedding of the repository's source.  The authoritative final
variant lives in `src/unnamed/part_001` (module `confirm-environment`):
`fatal` prints the message and calls `process.exit(1)`; `getValue` resolves a
variable with a `NODE_ENV` suffix fallback and an optional default; `confirm`
builds a fluent chain of predicate methods sharing a mutable `_NOT_` flag.
An earlier variant, `src/index.js`, instead has `fatal` throw a catchable
`Error`; it is embedded separately (`getValue_v0`) where a claim depends on
the difference.

The environment table is modelled as an association list, the filesystem
(for `isPath`) as the list of existing directories, JS values as strings or
integers-or-NaN, and the process outcome of each call as an explicit
`Outcome` carrying the world state at the moment of exit or throw.
-/

namespace ConfirmEnv

/-- A JS value as used by the chain: either a string or a number.  Numbers
are restricted to integers plus NaN (`num none` models NaN), which covers
every numeric comparison the library performs on environment strings. -/
inductive JSVal where
  | str : String → JSVal
  | num : Option Int → JSVal
deriving Repr, DecidableEq

/-- Model of JS `String.prototype.toUpperCase`, restricted to ASCII. -/
def toUpperCase (s : String) : String :=
  String.mk (s.data.map Char.toUpper)

/-- ASCII whitespace as trimmed by JS `ToNumber`. -/
def isWhitespaceChar (c : Char) : Bool :=
  c == ' ' || c == '\t' || c == '\n' || c == '\r'

/-- Model of JS string trimming (both ends). -/
def jsTrim (s : String) : String :=
  String.mk (((s.data.dropWhile isWhitespaceChar).reverse.dropWhile isWhitespaceChar).reverse)

/-- Decimal digits to a natural number; `none` when empty or non-digit. -/
def digitsToNat (ds : List Char) : Option Nat :=
  if ds = [] then none
  else if ds.all Char.isDigit then
    some (ds.foldl (fun acc c => acc * 10 + (c.toNat - 48)) 0)
  else none

/-- Model of JS `ToNumber` on strings, restricted to optionally signed
decimal integers: the trimmed empty string is `0`, anything unparsable is
NaN (`none`). -/
def strToNum (s : String) : Option Int :=
  let t := jsTrim s
  if t = "" then some 0
  else
    match t.data with
    | '-' :: ds => (digitsToNat ds).map fun n => -(n : Int)
    | '+' :: ds => (digitsToNat ds).map fun n => (n : Int)
    | ds => (digitsToNat ds).map fun n => (n : Int)

/-- `ToNumber` of a JS value. -/
def toNum : JSVal → Option Int
  | .str s => strToNum s
  | .num n => n

/-- JS loose equality `==` for the shapes the chain can meet: two strings
compare exactly, otherwise both operands go through `ToNumber` and NaN is
equal to nothing. -/
def jsEq : JSVal → JSVal → Bool
  | .str a, .str b => a == b
  | a, b =>
    match toNum a, toNum b with
    | some x, some y => x == y
    | _, _ => false

/-- JS abstract relational comparison `<`: two strings compare
lexicographically, otherwise numerically with NaN comparing false. -/
def jsLt : JSVal → JSVal → Bool
  | .str a, .str b => decide (a < b)
  | a, b =>
    match toNum a, toNum b with
    | some x, some y => decide (x < y)
    | _, _ => false

/-- JS `>` is the swapped `<`. -/
def jsGt (a b : JSVal) : Bool := jsLt b a

/-- JS `<=`: for strings the negation of the swapped `<`; numerically `≤`
with NaN comparing false. -/
def jsLe : JSVal → JSVal → Bool
  | .str a, .str b => !(decide (b < a))
  | a, b =>
    match toNum a, toNum b with
    | some x, some y => decide (x ≤ y)
    | _, _ => false

/-- JS `>=` is the swapped `<=`. -/
def jsGe (a b : JSVal) : Bool := jsLe b a

/-- JS string conversion of a value (template-literal interpolation). -/
def jsToStr : JSVal → String
  | .str s => s
  | .num (some i) => toString i
  | .num none => "NaN"

/-- Model of `JSON.stringify` restricted to escape-free strings and
numbers; NaN serializes as `null`. -/
def jsonStringify : JSVal → String
  | .str s => "\"" ++ s ++ "\""
  | .num (some i) => toString i
  | .num none => "null"

/-- JS default string conversion of an array: elements joined by commas. -/
def jsArrToStr (vs : List JSVal) : String :=
  String.intercalate "," (vs.map jsToStr)

/-- Embedding of `arrayToText` (part_001 lines 85-89): each element is
JSON-stringified with a leading space, the first element's space is then
removed, and the array joins with commas inside brackets.  For the empty
array the JS quirk (`JSON.stringify(undefined)` joining to the empty
string) yields `[]`. -/
def arrayToText : List JSVal → String
  | [] => "[]"
  | v :: rest =>
    "[" ++ String.intercalate ","
      (jsonStringify v :: rest.map (fun item => " " ++ jsonStringify item)) ++ "]"

/-- Contiguous-occurrence check on character lists. -/
def listInfixOf (needle : List Char) : List Char → Bool
  | [] => needle.isEmpty
  | c :: rest => needle.isPrefixOf (c :: rest) || listInfixOf needle rest

/-- Model of JS `String.prototype.includes`. -/
def strIncludes (value sub : String) : Bool :=
  listInfixOf sub.data value.data

/-- The process environment table: an association list with unique keys,
mapping variable names to string values. -/
abbrev Env := List (String × String)

/-- `process.env[key]` lookup. -/
def envGet : Env → String → Option String
  | [], _ => none
  | (k, v) :: rest, key => if k = key then some v else envGet rest key

/-- `process.env[key] = val` assignment. -/
def envSet : Env → String → String → Env
  | [], key, val => [(key, val)]
  | (k, v) :: rest, key, val =>
    if k = key then (k, val) :: rest else (k, v) :: envSet rest key val

/-- `delete process.env[key]`. -/
def envDel : Env → String → Env
  | [], _ => []
  | (k, v) :: rest, key =>
    if k = key then envDel rest key else (k, v) :: envDel rest key

/-- JS truthiness of a possibly-undefined string: `undefined` and `""` are
falsy, every other string is truthy. -/
def truthy : Option String → Bool
  | none => false
  | some s => !(s == "")

/-- The mutable world the library touches: the process environment table
and the set of directories that exist on the filesystem. -/
structure World where
  env : Env
  fs : List String
deriving Repr, DecidableEq

/-- Result of running a piece of the library: a value, or process
termination via `process.exit` (exit code, printed diagnostic, world state
at exit), or an exception propagating to the caller (message, world state
at the throw). -/
inductive Outcome (α : Type) where
  | ok : α → Outcome α
  | exited : Nat → String → World → Outcome α
  | threw : String → World → Outcome α
deriving Repr, DecidableEq

/-- Whether a run completed without exiting or throwing. -/
def Outcome.isOk {α : Type} : Outcome α → Bool
  | .ok _ => true
  | .exited _ _ _ => false
  | .threw _ _ => false

/-- Embedding of `fatal` from part_001 lines 19-24: prints the message, a
blank line and "Terminating application!", then calls `process.exit(1)`. -/
def fatal {α : Type} (message : String) (w : World) : Outcome α :=
  .exited 1 message w

/-- Embedding of `getValue` (part_001 lines 34-77).  The name must be
non-empty; it is uppercased; if the variable is falsy and `NODE_ENV` is
truthy, the `NAME_MODE` suffixed variable is consulted and, when truthy,
renamed onto `NAME`; if the result is still falsy, a truthy default is
written to the table and returned, otherwise the run is fatal. -/
def getValue (w : World) (name0 : String) (defaultValue : Option String) :
    Outcome (World × String) :=
  if name0 = "" then
    fatal "The \"name\" parameter is required!" w
  else
    let name := toUpperCase name0
    let value := envGet w.env name
    let envValue :=
      if !(truthy value) && truthy (envGet w.env "NODE_ENV") then
        let newName := name ++ "_" ++ toUpperCase ((envGet w.env "NODE_ENV").getD "")
        let v2 := envGet w.env newName
        if truthy v2 then
          (envDel (envSet w.env name (v2.getD "")) newName, v2)
        else
          (w.env, v2)
      else
        (w.env, value)
    if !(truthy envValue.2) || envValue.2 == some "" then
      if truthy defaultValue then
        (.ok (⟨envSet envValue.1 name (defaultValue.getD ""), w.fs⟩, defaultValue.getD ""))
      else
        fatal ("The \"" ++ name ++ " environment variable is undefined!") ⟨envValue.1, w.fs⟩
    else
      .ok (⟨envValue.1, w.fs⟩, envValue.2.getD "")

instance {ε α : Type} [DecidableEq ε] [DecidableEq α] : DecidableEq (Except ε α)
  | .error e, .error f =>
    if h : e = f then isTrue (by rw [h]) else isFalse fun he => h (by cases he; rfl)
  | .error _, .ok _ => isFalse fun he => Except.noConfusion he
  | .ok _, .error _ => isFalse fun he => Except.noConfusion he
  | .ok x, .ok y =>
    if h : x = y then isTrue (by rw [h]) else isFalse fun he => h (by cases he; rfl)

/-- Embedding of `getValue` from the earlier variant `src/index.js`
(lines 9-46): same resolution logic but without a default value, and its
`fatal` (index.js lines 4-6) throws a catchable `Error` instead of
terminating the process, so failures surface as `Except.error`. -/
def getValue_v0 (env : Env) (name0 : String) : Except String (Env × String) :=
  if name0 = "" then
    .error "The \"name\" parameter is required!"
  else
    let name := toUpperCase name0
    let value := envGet env name
    let envValue :=
      if !(truthy value) && truthy (envGet env "NODE_ENV") then
        let newName := name ++ "_" ++ toUpperCase ((envGet env "NODE_ENV").getD "")
        let v2 := envGet env newName
        if truthy v2 then
          (envDel (envSet env name (v2.getD "")) newName, v2)
        else
          (env, v2)
      else
        (env, value)
    if !(truthy envValue.2) then
      .error ("The \"" ++ name ++ "\" environment variable is undefined!")
    else
      .ok (envValue.1, envValue.2.getD "")

/-- One confirmation session (the closure state of `confirm`, part_001
lines 158-166): the `name` exactly as passed to `confirm`, the resolved
`value`, and the `_NOT_` negation flag. -/
structure Sess where
  name : String
  value : String
  negate : Bool
deriving Repr, DecidableEq

/-- The comparison predicates of the chain that follow the shared
compute/negate/fatal/reset template (part_001 lines 186-396). -/
inductive Pred where
  | is : JSVal → Pred
  | isDefined : Pred
  | isEQ : JSVal → Pred
  | isGT : JSVal → Pred
  | isGE : JSVal → Pred
  | isLT : JSVal → Pred
  | isLE : JSVal → Pred
  | hasLength : JSVal → JSVal → Pred
  | contains : String → Pred
  | matches : String → Pred
  | isIn : List JSVal → Pred
deriving Repr, DecidableEq

/-- A call on the chain object: the `.not` getter, one of the template
predicates, or `isPath(force)`. -/
inductive Call where
  | not : Call
  | pred : Pred → Call
  | isPath : Bool → Call
deriving Repr, DecidableEq

/-- The boolean `valid` each template predicate computes before negation
(the first line of each method in part_001): loose/relational comparison
against the value, length bounds, substring, regex (via the oracle `rt`
standing for the external `RegExp` engine), or strict array membership
(`Array.prototype.includes`). -/
def predHolds (rt : String → String → Bool) (value : String) : Pred → Bool
  | .is c => jsEq (.str value) c
  | .isDefined => true
  | .isEQ c => jsEq (.str value) c
  | .isGT c => jsGt (.str value) c
  | .isGE c => jsGe (.str value) c
  | .isLT c => jsLt (.str value) c
  | .isLE c => jsLe (.str value) c
  | .hasLength mn mx =>
    jsGe (.num (some value.length)) mn && jsLe (.num (some value.length)) mx
  | .contains sub => strIncludes value sub
  | .matches pat => rt pat value
  | .isIn vs => vs.contains (JSVal.str value)

/-- The fatal message of each template predicate, taken verbatim from the
template literals in part_001; `negated` selects the `_NOT_` wording. -/
def predFailMsg (negated : Bool) (name value : String) : Pred → String
  | .is c =>
    if negated then
      "\"" ++ name ++ "\" is " ++ value ++ " and must not be equal to " ++ jsToStr c
    else
      "\"" ++ name ++ "\" is " ++ value ++ " and must be equal to " ++ jsToStr c
  | .isDefined =>
    if negated then
      "\"" ++ name ++ "\" must not be defined"
    else
      "\"" ++ name ++ "\" must be defined"
  | .isEQ c =>
    if negated then
      "\"" ++ name ++ "\" is " ++ value ++ " and must not be equal to " ++ jsToStr c
    else
      "\"" ++ name ++ "\" is " ++ value ++ " and must be equal to " ++ jsToStr c
  | .isGT c =>
    if negated then
      "\"" ++ name ++ "\" is " ++ value ++ " and must be less than or equal " ++ jsToStr c
    else
      "\"" ++ name ++ "\" is " ++ value ++ " and must be greater than " ++ jsToStr c
  | .isGE c =>
    if negated then
      "\"" ++ name ++ "\" is " ++ value ++ " and must be less than " ++ jsToStr c
    else
      "\"" ++ name ++ "\" is " ++ value ++ " and must be greater than or equal to " ++ jsToStr c
  | .isLT c =>
    if negated then
      "\"" ++ name ++ "\" is " ++ value ++ " and must be greater than or equal " ++ jsToStr c
    else
      "\"" ++ name ++ "\" is " ++ value ++ " and must be less than " ++ jsToStr c
  | .isLE c =>
    if negated then
      "\"" ++ name ++ "\" is " ++ value ++ " and must be greater than " ++ jsToStr c
    else
      "\"" ++ name ++ "\" is " ++ value ++ " and must be less than or equal to " ++ jsToStr c
  | .hasLength mn mx =>
    if negated then
      "\"" ++ name ++ "\" is " ++ toString value.length ++ " long and must not be between "
        ++ jsToStr mn ++ " and " ++ jsToStr mx ++ " long"
    else
      "\"" ++ name ++ "\" is " ++ toString value.length ++ " long and must be between "
        ++ jsToStr mn ++ " and " ++ jsToStr mx ++ " long"
  | .contains sub =>
    if negated then
      "\"" ++ name ++ "\" is \"" ++ value ++ "\" and must not contain \"" ++ sub
    else
      "\"" ++ name ++ "\" is \"" ++ value ++ " \"and must contain \"" ++ sub ++ "\""
  | .matches pat =>
    if negated then
      "\"" ++ name ++ "\" is \"" ++ value ++ "\" and must not matched the regular expression \"" ++ pat
    else
      "\"" ++ name ++ "\" is \"" ++ value ++ " \"and does not match the regular expression \"" ++ pat ++ "\""
  | .isIn vs =>
    if negated then
      "\"" ++ name ++ "\" is \"" ++ value ++ "\" and must not be in the array " ++ jsArrToStr vs
    else
      "\"" ++ name ++ "\" is \"" ++ value ++ " \" and must be in the array " ++ arrayToText vs

/-- Model of Node `path.resolve` for inputs free of `.`/`..` segments: a
string starting with `/` is already absolute, anything else joins onto the
current working directory. -/
def pathResolve (cwd v : String) : String :=
  if v.data.head? == some '/' then v else cwd ++ "/" ++ v

/-- Split a character list at every slash. -/
def splitSlash : List Char → List (List Char)
  | [] => [[]]
  | c :: rest =>
    let r := splitSlash rest
    if c = '/' then [] :: r
    else
      match r with
      | [] => [[c]]
      | h :: t => (c :: h) :: t

/-- Rejoin slash-separated segments. -/
def joinSlash : List (List Char) → List Char
  | [] => []
  | [x] => x
  | x :: rest => x ++ '/' :: joinSlash rest

/-- The parent directory of a path: everything before the final slash
(the root's parent is the root itself). -/
def parentDir (p : String) : String :=
  match (splitSlash p.data).dropLast with
  | [] => p
  | [[]] => "/"
  | parts => String.mk (joinSlash parts)

/-- Model of Node `fs.mkdirSync` without the `recursive` option: creates
the single directory when its parent exists and otherwise throws `ENOENT`;
it never creates intermediate directories. -/
def mkdirSync (fs : List String) (p : String) : Except String (List String) :=
  if fs.contains (parentDir p) then
    .ok (p :: fs)
  else
    .error ("ENOENT: no such file or directory, mkdir '" ++ p ++ "'")

/-- One call on the chain object (part_001 lines 169-423).  `.not` flips
the flag and returns the chain.  Each template predicate computes `valid`,
inverts it when `_NOT_` is set, goes fatal with the positive or negated
message when the final `valid` is false, resets `_NOT_` and returns the
chain.  `isPath` resolves the value to an absolute path, writes it to
`process.env[name]`, then either finds the path, creates it (`force`), or
goes fatal; it resets `_NOT_` without ever consulting it. -/
def callStep (rt : String → String → Bool) (cwd : String) (w : World) (s : Sess) :
    Call → Outcome (World × Sess)
  | .not => .ok (w, { s with negate := !s.negate })
  | .pred p =>
    let valid0 := predHolds rt s.value p
    let valid := if s.negate then !valid0 else valid0
    if !s.negate && !valid then
      fatal (predFailMsg false s.name s.value p) w
    else if s.negate && !valid then
      fatal (predFailMsg true s.name s.value p) w
    else
      .ok (w, { s with negate := false })
  | .isPath force =>
    let value := pathResolve cwd s.value
    let env2 := envSet w.env s.name value
    if !(w.fs.contains value) then
      if force then
        match mkdirSync w.fs value with
        | .ok fs2 => .ok (⟨env2, fs2⟩, { s with value := value, negate := false })
        | .error e => .threw e ⟨env2, w.fs⟩
      else
        fatal ("\"" ++ s.name ++ "\" is \"" ++ value ++ "\" but it does not exist!")
          ⟨env2, w.fs⟩
    else
      .ok (⟨env2, w.fs⟩, { s with value := value, negate := false })

/-- Run a list of chained calls left to right, stopping at the first exit
or throw (the process halts, so nothing after it runs). -/
def runChain (rt : String → String → Bool) (cwd : String) (w : World) (s : Sess) :
    List Call → Outcome (World × Sess)
  | [] => .ok (w, s)
  | c :: cs =>
    match callStep rt cwd w s c with
    | .ok (w2, s2) => runChain rt cwd w2 s2 cs
    | .exited code m w2 => .exited code m w2
    | .threw m w2 => .threw m w2

/-- Embedding of `confirm` (part_001 lines 158-166 and 425-427): resolve
the value through `getValue` and hand back the chain state with the name
as passed and the `_NOT_` flag cleared. -/
def confirm (w : World) (name : String) (defaultValue : Option String) :
    Outcome (World × Sess) :=
  match getValue w name defaultValue with
  | .ok (w2, value) => .ok (w2, { name := name, value := value, negate := false })
  | .exited code m w2 => .exited code m w2
  | .threw m w2 => .threw m w2

/-- A whole use of the library: `confirm(name, default?)` followed by a
chain of calls. -/
def confirmChain (rt : String → String → Bool) (cwd : String) (w : World)
    (name : String) (defaultValue : Option String) (calls : List Call) :
    Outcome (World × Sess) :=
  match confirm w name defaultValue with
  | .ok (w2, s) => runChain rt cwd w2 s calls
  | .exited code m w2 => .exited code m w2
  | .threw m w2 => .threw m w2

/-- A concrete regular-expression oracle for closed evaluations (the
claims under scrutiny never exercise `matches`). -/
def rtNone : String → String → Bool := fun _ _ => false

/-- The part of a chain outcome that does not embed the as-passed variable
name: the success value and negation state, the exit code, or the throw,
together with the filesystem.  Diagnostic messages and the environment
table are dropped because both interpolate the name exactly as passed. -/
inductive Obs where
  | ok : String → Bool → List String → Obs
  | exited : Nat → List String → Obs
  | threw : List String → Obs
deriving Repr, DecidableEq

/-- Project a chain outcome onto its name-independent observation. -/
def obsOf : Outcome (World × Sess) → Obs
  | .ok (w, s) => .ok s.value s.negate w.fs
  | .exited c _ w => .exited c w.fs
  | .threw _ w => .threw w.fs

/-- Agreement of two resolution outcomes up to the table representation:
same resolved value, same filesystem and observably equal tables on
success; same exit code and printed message on exit; same message on a
throw. -/
def resAgree : Outcome (World × String) → Outcome (World × String) → Prop
  | .ok (w1, v1), .ok (w2, v2) =>
    v1 = v2 ∧ w1.fs = w2.fs ∧ ∀ k, envGet w1.env k = envGet w2.env k
  | .exited c1 m1 _, .exited c2 m2 _ => c1 = c2 ∧ m1 = m2
  | .threw m1 _, .threw m2 _ => m1 = m2
  | _, _ => False

/-! ## Helper lemmas about the environment table -/

theorem envGet_envSet_self (e : Env) (k v : String) :
    envGet (envSet e k v) k = some v := by
  induction e with
  | nil => simp [envSet, envGet]
  | cons kv rest ih =>
    by_cases h : kv.1 = k
    · simp [envSet, envGet, h]
    · simp [envSet, envGet, h, ih]

theorem envGet_envSet_ne (e : Env) (k v k2 : String) (h : k2 ≠ k) :
    envGet (envSet e k v) k2 = envGet e k2 := by
  have h2 : ¬ k = k2 := fun he => h he.symm
  induction e with
  | nil => simp [envSet, envGet, h2]
  | cons kv rest ih =>
    by_cases hk : kv.1 = k
    · subst hk
      simp only [envSet, if_pos rfl, envGet, if_neg h2]
    · simp only [envSet, if_neg hk, envGet]
      by_cases hk2 : kv.1 = k2 <;> simp [hk2, ih]

theorem envGet_envDel_self (e : Env) (k : String) :
    envGet (envDel e k) k = none := by
  induction e with
  | nil => simp [envDel, envGet]
  | cons kv rest ih =>
    by_cases h : kv.1 = k
    · simp [envDel, h, ih]
    · simp [envDel, envGet, h, ih]

theorem envGet_envDel_ne (e : Env) (k k2 : String) (h : k2 ≠ k) :
    envGet (envDel e k) k2 = envGet e k2 := by
  have h2 : ¬ k = k2 := fun he => h he.symm
  induction e with
  | nil => simp [envDel]
  | cons kv rest ih =>
    obtain ⟨a, b⟩ := kv
    by_cases hk : a = k
    · subst hk
      simp [envDel, envGet, h2, ih]
    · simp only [envDel, if_neg hk, envGet]
      by_cases hk2 : a = k2 <;> simp [hk2, ih]

/-! ## Helper lemmas about uppercasing -/

theorem charToNat_ofNat_valid {n : Nat} (h : n < 55296) : (Char.ofNat n).toNat = n := by
  rw [Char.ofNat, dif_pos (Or.inl h)]
  simp [Char.ofNatAux, Char.toNat, UInt32.ofNat', UInt32.toNat]

theorem charToUpper_idem (c : Char) : Char.toUpper (Char.toUpper c) = Char.toUpper c := by
  unfold Char.toUpper
  by_cases h : c.toNat ≥ 97 ∧ c.toNat ≤ 122
  · rw [if_pos h]
    have h32 : c.toNat - 32 < 55296 := by omega
    rw [charToNat_ofNat_valid h32]
    rw [if_neg (by omega)]
  · rw [if_neg h, if_neg h]

theorem toUpperCase_idem (s : String) : toUpperCase (toUpperCase s) = toUpperCase s := by
  simp only [toUpperCase, List.map_map]
  congr 1
  exact List.map_congr_left fun c _ => charToUpper_idem c

theorem toUpperCase_eq_empty_iff (s : String) : toUpperCase s = "" ↔ s = "" := by
  constructor
  · intro h
    have hd : (toUpperCase s).data = [] := by rw [h]
    have : s.data = [] := by
      have : s.data.map Char.toUpper = [] := hd
      exact List.map_eq_nil_iff.mp this
    cases s with
    | mk data =>
      cases this
      rfl
  · intro h
    rw [h]
    rfl

/-! ## Shape lemmas for getValue -/

theorem truthy_some_of_ne {s : String} (h : s ≠ "") : truthy (some s) = true := by
  simp [truthy, h]

/-- When the variable is unresolved (its entry is falsy, and the suffixed
entry is falsy whenever `NODE_ENV` is truthy), `getValue` reduces to the
default-or-fatal step. -/
theorem getValue_unresolved (env : Env) (fs : List String) (name : String)
    (hname : name ≠ "")
    (habs : truthy (envGet env (toUpperCase name)) = false)
    (hsuf : truthy (envGet env "NODE_ENV") = true →
      truthy (envGet env (toUpperCase name ++ "_"
        ++ toUpperCase ((envGet env "NODE_ENV").getD ""))) = false)
    (d : Option String) :
    getValue ⟨env, fs⟩ name d =
      (if truthy d then
        Outcome.ok (⟨envSet env (toUpperCase name) (d.getD ""), fs⟩, d.getD "")
      else
        .exited 1 ("The \"" ++ toUpperCase name ++ " environment variable is undefined!")
          ⟨env, fs⟩) := by
  unfold getValue
  rw [if_neg hname]
  by_cases hnode : truthy (envGet env "NODE_ENV") = true
  · have hsuf2 := hsuf hnode
    simp only [habs, hnode, hsuf2, Bool.not_false, Bool.true_and, Bool.and_true,
      if_true, if_false, Bool.false_eq_true, ite_false, ite_true, fatal]
    by_cases hsv : envGet env (toUpperCase name ++ "_"
        ++ toUpperCase ((envGet env "NODE_ENV").getD "")) = none
    · simp [hsv, truthy]
    · cases hs : envGet env (toUpperCase name ++ "_"
          ++ toUpperCase ((envGet env "NODE_ENV").getD "")) with
      | none => exact absurd hs hsv
      | some sv =>
        rw [hs] at hsuf2
        have : sv = "" := by
          by_cases hsv2 : sv = ""
          · exact hsv2
          · rw [truthy_some_of_ne hsv2] at hsuf2
            cases hsuf2
        subst this
        simp [hs, truthy]
  · simp only [Bool.not_eq_true] at hnode
    simp only [habs, hnode, Bool.and_false, if_false, Bool.false_eq_true, ite_false, fatal]
    cases hv : envGet env (toUpperCase name) with
    | none => simp [hv, truthy]
    | some v =>
      rw [hv] at habs
      have : v = "" := by
        by_cases hv2 : v = ""
        · exact hv2
        · rw [truthy_some_of_ne hv2] at habs
          cases habs
      subst this
      simp [truthy]

/-- When the variable is falsy but `NODE_ENV` and the suffixed entry are
both truthy, `getValue` renames the suffixed entry onto the plain name and
returns its value regardless of the default. -/
theorem getValue_suffix_found (env : Env) (fs : List String) (name mode v : String)
    (hname : name ≠ "")
    (habs : truthy (envGet env (toUpperCase name)) = false)
    (hmode : envGet env "NODE_ENV" = some mode) (hmodene : mode ≠ "")
    (hsuf : envGet env (toUpperCase name ++ "_" ++ toUpperCase mode) = some v)
    (hv : v ≠ "") (d : Option String) :
    getValue ⟨env, fs⟩ name d =
      .ok (⟨envDel (envSet env (toUpperCase name) v)
        (toUpperCase name ++ "_" ++ toUpperCase mode), fs⟩, v) := by
  unfold getValue
  rw [if_neg hname]
  have hnode : truthy (envGet env "NODE_ENV") = true := by
    rw [hmode]
    exact truthy_some_of_ne hmodene
  simp only [habs, hnode, hmode, Option.getD_some, Bool.not_false, Bool.true_and,
    if_true, hsuf, truthy_some_of_ne hv, Option.some.injEq, fatal]
  simp [truthy, hv, hmodene]

/-! ## Distinctness of the negated and non-negated failure messages -/

theorem strData_append (a b : String) : (a ++ b).data = a.data ++ b.data := by
  cases a; cases b; rfl

theorem predFailMsg_ne (name value : String) (p : Pred) :
    predFailMsg true name value p ≠ predFailMsg false name value p := by
  cases p <;>
    · intro he
      have hd := congrArg String.data he
      simp [predFailMsg, strData_append, String.data] at hd

/-! ## Chain lemmas -/

theorem callStep_pred_eq (rt : String → String → Bool) (cwd : String)
    (w : World) (s : Sess) (p : Pred) :
    callStep rt cwd w s (.pred p) =
      (if xor (predHolds rt s.value p) s.negate then
        .ok (w, { s with negate := false })
      else
        fatal (predFailMsg s.negate s.name s.value p) w) := by
  cases hn : s.negate <;> cases hb : predHolds rt s.value p <;>
    simp [callStep, hn, hb, fatal]

theorem runChain_single_pred (rt : String → String → Bool) (cwd : String)
    (w : World) (s : Sess) (p : Pred) :
    (runChain rt cwd w s [.pred p]).isOk = xor (predHolds rt s.value p) s.negate := by
  show (match callStep rt cwd w s (.pred p) with
    | Outcome.ok (w2, s2) => runChain rt cwd w2 s2 []
    | Outcome.exited c m w2 => Outcome.exited c m w2
    | Outcome.threw m w2 => Outcome.threw m w2).isOk = _
  rw [callStep_pred_eq]
  by_cases hx : xor (predHolds rt s.value p) s.negate = true
  · rw [if_pos hx, hx]
    rfl
  · rw [if_neg hx]
    simp only [Bool.not_eq_true] at hx
    rw [hx]
    rfl

theorem runChain_replicate_not (rt : String → String → Bool) (cwd : String)
    (w : World) (s : Sess) (k : Nat) (rest : List Call) :
    runChain rt cwd w s (List.replicate k .not ++ rest) =
      runChain rt cwd w { s with negate := xor s.negate (Nat.bodd k) } rest := by
  induction k generalizing s with
  | zero => simp
  | succ n ih =>
    rw [List.replicate_succ, List.cons_append]
    show runChain rt cwd w { s with negate := !s.negate } (List.replicate n .not ++ rest) = _
    rw [ih]
    have hb : xor (!s.negate) (Nat.bodd n) = xor s.negate (Nat.bodd (n + 1)) := by
      rw [Nat.bodd_succ]
      cases s.negate <;> cases Nat.bodd n <;> rfl
    rw [hb]

/-! ## Claim theorems -/

/-- C1 counterexample: `isPath` breaks the shared predicate contract.  On a
missing path with `force=false`, the fatal message is the same whether or
not negation is pending (the claim requires distinct wording), and with
negation pending and an existing path (raw result true, so the final,
inverted result is false) the call succeeds instead of terminating. -/
theorem c1_counterexample :
    callStep rtNone "/app" ⟨[("LOG_PATH", "/data")], ["/"]⟩
        ⟨"LOG_PATH", "/data", true⟩ (.isPath false) =
      .exited 1 "\"LOG_PATH\" is \"/data\" but it does not exist!"
        ⟨[("LOG_PATH", "/data")], ["/"]⟩
  ∧ callStep rtNone "/app" ⟨[("LOG_PATH", "/data")], ["/"]⟩
        ⟨"LOG_PATH", "/data", false⟩ (.isPath false) =
      .exited 1 "\"LOG_PATH\" is \"/data\" but it does not exist!"
        ⟨[("LOG_PATH", "/data")], ["/"]⟩
  ∧ callStep rtNone "/app" ⟨[("LOG_PATH", "/data")], ["/", "/data"]⟩
        ⟨"LOG_PATH", "/data", true⟩ (.isPath true) =
      .ok (⟨[("LOG_PATH", "/data")], ["/", "/data"]⟩, ⟨"LOG_PATH", "/data", false⟩) :=
  ⟨by decide, by decide, by decide⟩

/-- C1 (amended): every predicate method except `isPath` — `is`, `isEQ`,
`isGT`, `isGE`, `isLT`, `isLE`, `hasLength`, `contains`, `matches`, `isIn`
(and `isDefined`) — computes a boolean result, inverts it when negation is
pending, terminates fatally exactly when the final result is false with
wording that differs between the negated and non-negated case, resets the
negation flag and returns the chain; `isPath` ignores the pending negation
(no inversion, no negated wording), though it too resets the flag and
returns the chain. -/
theorem c1_predicate_contract (rt : String → String → Bool) (cwd : String)
    (w : World) (s : Sess) (p : Pred) :
    callStep rt cwd w s (.pred p) =
      (if xor (predHolds rt s.value p) s.negate then
        .ok (w, { s with negate := false })
      else
        fatal (predFailMsg s.negate s.name s.value p) w)
  ∧ predFailMsg true s.name s.value p ≠ predFailMsg false s.name s.value p :=
  ⟨callStep_pred_eq rt cwd w s p, predFailMsg_ne s.name s.value p⟩

/-- C7 counterexample: after one `.not`, the claim requires the next
predicate's outcome to be inverted, but `isPath` on an existing path still
succeeds (its outcome is never inverted). -/
theorem c7_counterexample :
    runChain rtNone "/srv" ⟨[("DATA_PATH", "/srv")], ["/", "/srv"]⟩
        ⟨"DATA_PATH", "/srv", false⟩ [.not, .isPath false] =
      .ok (⟨[("DATA_PATH", "/srv")], ["/", "/srv"]⟩, ⟨"DATA_PATH", "/srv", false⟩) := by
  decide

/-- C7 (amended): the negation flag is false at chain creation, toggled by
every `.not` access, and reset to false at the end of every predicate
evaluation (including `isPath`); for every predicate except `isPath`, the
outcome is inverted exactly when `.not` was accessed an odd number of
times since the previous predicate evaluation or chain creation; `isPath`
ignores the flag while still resetting it. -/
theorem c7_negation_flag :
    (∀ w name d w2 s, confirm w name d = .ok (w2, s) → s.negate = false)
  ∧ (∀ (rt : String → String → Bool) cwd w s,
      callStep rt cwd w s .not = .ok (w, { s with negate := !s.negate }))
  ∧ (∀ (rt : String → String → Bool) cwd w s c w2 s2, c ≠ .not →
      callStep rt cwd w s c = .ok (w2, s2) → s2.negate = false)
  ∧ (∀ (rt : String → String → Bool) cwd w s p k, s.negate = false →
      ((runChain rt cwd w s (List.replicate k .not ++ [.pred p])).isOk = true ↔
        xor (predHolds rt s.value p) (Nat.bodd k) = true)) := by
  refine ⟨?_, ?_, ?_, ?_⟩
  · intro w name d w2 s h
    unfold confirm at h
    cases hg : getValue w name d with
    | ok a =>
      rw [hg] at h
      cases h
      rfl
    | exited c m w3 => rw [hg] at h; cases h
    | threw m w3 => rw [hg] at h; cases h
  · intro rt cwd w s
    rfl
  · intro rt cwd w s c w2 s2 hc h
    have hval : (match callStep rt cwd w s c with
        | Outcome.ok (_, s3) => s3.negate
        | Outcome.exited _ _ _ => false
        | Outcome.threw _ _ => false) = false := by
      cases c with
      | not => exact absurd rfl hc
      | pred p =>
        rw [callStep_pred_eq]
        by_cases hx : xor (predHolds rt s.value p) s.negate = true
        · rw [if_pos hx]
        · rw [if_neg hx]
          rfl
      | isPath force =>
        simp only [callStep]
        by_cases he : (!(w.fs.contains (pathResolve cwd s.value))) = true
        · rw [if_pos he]
          cases force with
          | true =>
            rw [if_pos rfl]
            cases hm : mkdirSync w.fs (pathResolve cwd s.value) with
            | ok fs2 => rfl
            | error e => rfl
          | false => rfl
        · rw [if_neg he]
    rw [h] at hval
    exact hval
  · intro rt cwd w s p k hneg
    rw [runChain_replicate_not, hneg]
    rw [runChain_single_pred]
    rw [show ({ s with negate := xor false (Nat.bodd k) } : Sess).value = s.value from rfl,
      show ({ s with negate := xor false (Nat.bodd k) } : Sess).negate
        = xor false (Nat.bodd k) from rfl]
    rw [Bool.false_xor]

/-- Witness for C7's amended theorem at concrete inputs: a session created
by `confirm` carries a cleared flag, and one `.not` before `isEQ(4001)` on
the value `"4000"` makes the chain succeed (the relation fails, inverted
once). -/
theorem c7_negation_flag_witness :
    (Sess.mk "SERVER_PORT" "4000" false).negate = false
  ∧ (runChain rtNone "/" ⟨[("K", "4000")], ["/"]⟩ ⟨"K", "4000", false⟩
      (List.replicate 1 Call.not ++ [Call.pred (Pred.isEQ (JSVal.num (some 4001)))])).isOk
      = true :=
  ⟨c7_negation_flag.1 ⟨[("SERVER_PORT", "4000")], ["/"]⟩ "SERVER_PORT" none
      ⟨[("SERVER_PORT", "4000")], ["/"]⟩ ⟨"SERVER_PORT", "4000", false⟩ (by decide),
    (c7_negation_flag.2.2.2 rtNone "/" ⟨[("K", "4000")], ["/"]⟩ ⟨"K", "4000", false⟩
      (Pred.isEQ (JSVal.num (some 4001))) 1 rfl).mpr (by decide)⟩

/-- C8: with `SERVER_PORT` bound to the string `"4000"`,
`confirm("SERVER_PORT").isGE(1000).isLE(60000)` succeeds (the string value
is coerced numerically for the ordering comparisons) and
`confirm("SERVER_PORT").isEQ(4001)` terminates fatally. -/
theorem c8_server_port :
    confirmChain rtNone "/app" ⟨[("SERVER_PORT", "4000")], ["/"]⟩ "SERVER_PORT" none
        [.pred (.isGE (.num (some 1000))), .pred (.isLE (.num (some 60000)))] =
      .ok (⟨[("SERVER_PORT", "4000")], ["/"]⟩, ⟨"SERVER_PORT", "4000", false⟩)
  ∧ confirmChain rtNone "/app" ⟨[("SERVER_PORT", "4000")], ["/"]⟩ "SERVER_PORT" none
        [.pred (.isEQ (.num (some 4001)))] =
      .exited 1 "\"SERVER_PORT\" is 4000 and must be equal to 4001"
        ⟨[("SERVER_PORT", "4000")], ["/"]⟩ :=
  ⟨by decide, by decide⟩

/-- C6: `isPath(force)` resolves the current value to an absolute path and
writes it back into the environment table under the session's name in
every case; when the resolved path exists the call succeeds and returns
the chain; when it does not exist, `force=true` creates exactly that one
directory level when the parent exists, and throws without creating
anything when the parent is missing (it never creates intermediate parent
directories), while `force=false` terminates fatally. -/
theorem c6_isPath (rt : String → String → Bool) (cwd : String) (w : World) (s : Sess)
    (habs : cwd.data.head? = some '/') :
    ((pathResolve cwd s.value).data.head? = some '/'
      ∧ envGet (envSet w.env s.name (pathResolve cwd s.value)) s.name
          = some (pathResolve cwd s.value))
  ∧ (∀ force, w.fs.contains (pathResolve cwd s.value) = true →
      callStep rt cwd w s (.isPath force) =
        .ok (⟨envSet w.env s.name (pathResolve cwd s.value), w.fs⟩,
          ⟨s.name, pathResolve cwd s.value, false⟩))
  ∧ (w.fs.contains (pathResolve cwd s.value) = false →
      w.fs.contains (parentDir (pathResolve cwd s.value)) = true →
      callStep rt cwd w s (.isPath true) =
        .ok (⟨envSet w.env s.name (pathResolve cwd s.value),
            pathResolve cwd s.value :: w.fs⟩,
          ⟨s.name, pathResolve cwd s.value, false⟩))
  ∧ (w.fs.contains (pathResolve cwd s.value) = false →
      w.fs.contains (parentDir (pathResolve cwd s.value)) = false →
      ∃ m, callStep rt cwd w s (.isPath true) =
        .threw m ⟨envSet w.env s.name (pathResolve cwd s.value), w.fs⟩)
  ∧ (w.fs.contains (pathResolve cwd s.value) = false →
      callStep rt cwd w s (.isPath false) =
        .exited 1 ("\"" ++ s.name ++ "\" is \"" ++ pathResolve cwd s.value
            ++ "\" but it does not exist!")
          ⟨envSet w.env s.name (pathResolve cwd s.value), w.fs⟩) := by
  refine ⟨⟨?_, envGet_envSet_self _ _ _⟩, ?_, ?_, ?_, ?_⟩
  · unfold pathResolve
    by_cases hv : (s.value.data.head? == some '/') = true
    · rw [if_pos hv]
      rw [beq_iff_eq] at hv
      exact hv
    · rw [if_neg hv]
      rw [strData_append, strData_append]
      cases hc : cwd.data with
      | nil => rw [hc] at habs; cases habs
      | cons c t =>
        rw [hc] at habs
        simp only [List.head?_cons, Option.some.injEq] at habs
        subst habs
        rfl
  · intro force hfs
    simp at hfs
    simp [callStep, hfs]
  · intro hfs hparent
    simp at hfs hparent
    simp [callStep, hfs, mkdirSync, hparent]
  · intro hfs hparent
    simp at hfs hparent
    refine ⟨"ENOENT: no such file or directory, mkdir '"
      ++ pathResolve cwd s.value ++ "'", ?_⟩
    simp [callStep, hfs, mkdirSync, hparent]
  · intro hfs
    simp at hfs
    simp [callStep, hfs, fatal]

/-- Witness for C6 at a concrete input: `LOG_PATH=logs` with cwd `/app`
and a missing `/app/logs` is created by `isPath(true)` and the table
rewritten to the absolute path. -/
theorem c6_isPath_witness :
    ("/app".data.head? = some '/')
  ∧ callStep rtNone "/app" ⟨[("LOG_PATH", "logs")], ["/", "/app"]⟩
        ⟨"LOG_PATH", "logs", false⟩ (Call.isPath true) =
      .ok (⟨[("LOG_PATH", "/app/logs")], ["/app/logs", "/", "/app"]⟩,
        ⟨"LOG_PATH", "/app/logs", false⟩) :=
  ⟨by decide, by
    have h := (c6_isPath rtNone "/app" ⟨[("LOG_PATH", "logs")], ["/", "/app"]⟩
      ⟨"LOG_PATH", "logs", false⟩ (by decide)).2.2.1 (by decide) (by decide)
    exact h.trans (by decide)⟩

/-- C10: when `isPath(false)` terminates fatally because the resolved path
does not exist, the environment table carried at the exit already holds
the resolved absolute path under the session's name — the write happens
before the existence check, so the failure is not atomic with respect to
the table. -/
theorem c10_env_written_before_fatal (rt : String → String → Bool) (cwd : String)
    (w : World) (s : Sess)
    (h : w.fs.contains (pathResolve cwd s.value) = false) :
    ∃ m w2, callStep rt cwd w s (.isPath false) = .exited 1 m w2
      ∧ envGet w2.env s.name = some (pathResolve cwd s.value) := by
  refine ⟨"\"" ++ s.name ++ "\" is \"" ++ pathResolve cwd s.value
      ++ "\" but it does not exist!",
    ⟨envSet w.env s.name (pathResolve cwd s.value), w.fs⟩, ?_, ?_⟩
  · simp at h
    simp [callStep, h, fatal]
  · exact envGet_envSet_self w.env s.name (pathResolve cwd s.value)

/-- Witness for C10 at a concrete input. -/
theorem c10_env_written_before_fatal_witness :
    ((["/", "/app"] : List String).contains (pathResolve "/app" "logs") = false)
  ∧ ∃ m w2, callStep rtNone "/app" ⟨[("LOG_PATH", "logs")], ["/", "/app"]⟩
        ⟨"LOG_PATH", "logs", false⟩ (Call.isPath false) = .exited 1 m w2
      ∧ envGet w2.env "LOG_PATH" = some (pathResolve "/app" "logs") :=
  ⟨by decide, c10_env_written_before_fatal rtNone "/app"
    ⟨[("LOG_PATH", "logs")], ["/", "/app"]⟩ ⟨"LOG_PATH", "logs", false⟩ (by decide)⟩

/-- C2 counterexample: with `NODE_ENV=TEST`, `NAME_TEST` set (to the empty
string) and `NAME` unset, the claim requires resolution to the suffixed
entry's value together with the rename, but the code treats the empty
suffixed entry as unset: no rename happens, resolution fails fatally, and
the table carried at exit still contains `NAME_TEST` and no `NAME`. -/
theorem c2_counterexample :
    getValue ⟨[("NODE_ENV", "TEST"), ("NAME_TEST", "")], ["/"]⟩ "NAME" none =
      .exited 1 "The \"NAME environment variable is undefined!"
        ⟨[("NODE_ENV", "TEST"), ("NAME_TEST", "")], ["/"]⟩ := by
  decide

/-- C2 (amended): if the uppercased name's entry is unset or empty,
`NODE_ENV` is set to a nonempty value `mode`, and the suffixed entry
`NAME_MODE` is set to a nonempty value `v`, then resolution returns `v`
and afterwards the table maps the uppercased name to `v` and no longer
contains the suffixed entry. -/
theorem c2_suffix_fallback (env : Env) (fs : List String) (name : String)
    (d : Option String) (mode v : String)
    (hname : name ≠ "")
    (habs : truthy (envGet env (toUpperCase name)) = false)
    (hmode : envGet env "NODE_ENV" = some mode) (hmodene : mode ≠ "")
    (hsuf : envGet env (toUpperCase name ++ "_" ++ toUpperCase mode) = some v)
    (hv : v ≠ "") :
    ∃ env2, getValue ⟨env, fs⟩ name d = .ok (⟨env2, fs⟩, v)
      ∧ envGet env2 (toUpperCase name) = some v
      ∧ envGet env2 (toUpperCase name ++ "_" ++ toUpperCase mode) = none := by
  have hne : toUpperCase name ≠ toUpperCase name ++ "_" ++ toUpperCase mode := by
    intro he
    have hl := congrArg String.length he
    rw [String.length_append, String.length_append] at hl
    have h1 : String.length "_" = 1 := rfl
    omega
  refine ⟨envDel (envSet env (toUpperCase name) v)
    (toUpperCase name ++ "_" ++ toUpperCase mode), ?_, ?_, ?_⟩
  · exact getValue_suffix_found env fs name mode v hname habs hmode hmodene hsuf hv d
  · rw [envGet_envDel_ne _ _ _ hne, envGet_envSet_self]
  · exact envGet_envDel_self _ _

/-- Witness for C2's amended theorem at a concrete input, exercising the
case-insensitive name as well. -/
theorem c2_suffix_fallback_witness :
    (envGet [("NODE_ENV", "test"), ("NAME_TEST", "abc")] "NODE_ENV" = some "test")
  ∧ ∃ env2, getValue ⟨[("NODE_ENV", "test"), ("NAME_TEST", "abc")], ["/"]⟩ "name" none =
        .ok (⟨env2, ["/"]⟩, "abc")
      ∧ envGet env2 (toUpperCase "name") = some "abc"
      ∧ envGet env2 (toUpperCase "name" ++ "_" ++ toUpperCase "test") = none :=
  ⟨by decide, c2_suffix_fallback [("NODE_ENV", "test"), ("NAME_TEST", "abc")] ["/"]
    "name" none "test" "abc" (by decide) (by decide) (by decide) (by decide)
    (by decide) (by decide)⟩

/-- C3 counterexample: `NAME` and its suffixed variant unset, with the
empty string supplied as the default: the claim requires resolution to
return the supplied default and write it into the table, but the code
treats the empty default as absent and fails with the configuration
error. -/
theorem c3_counterexample :
    getValue ⟨[], ["/"]⟩ "NAME" (some "") =
      .exited 1 "The \"NAME environment variable is undefined!" ⟨[], ["/"]⟩ := by
  decide

/-- C3 (amended): for a variable still unresolved after the suffix
fallback, a supplied nonempty default is returned and written into the
table under the uppercased name, while with no default resolution fails
with the configuration error naming the variable. -/
theorem c3_default_fallback (env : Env) (fs : List String) (name : String)
    (hname : name ≠ "")
    (habs : truthy (envGet env (toUpperCase name)) = false)
    (hsuf : truthy (envGet env "NODE_ENV") = true →
      truthy (envGet env (toUpperCase name ++ "_"
        ++ toUpperCase ((envGet env "NODE_ENV").getD ""))) = false) :
    (∀ dv : String, dv ≠ "" →
      getValue ⟨env, fs⟩ name (some dv) =
        .ok (⟨envSet env (toUpperCase name) dv, fs⟩, dv)
      ∧ envGet (envSet env (toUpperCase name) dv) (toUpperCase name) = some dv)
  ∧ getValue ⟨env, fs⟩ name none =
      .exited 1 ("The \"" ++ toUpperCase name ++ " environment variable is undefined!")
        ⟨env, fs⟩ := by
  constructor
  · intro dv hdv
    have h := getValue_unresolved env fs name hname habs hsuf (some dv)
    rw [truthy_some_of_ne hdv] at h
    exact ⟨by simpa using h, envGet_envSet_self _ _ _⟩
  · have h := getValue_unresolved env fs name hname habs hsuf none
    simpa using h

/-- Witness for C3's amended theorem at a concrete input (the spec's
default-fallback example). -/
theorem c3_default_fallback_witness :
    (("NAME" : String) ≠ "")
  ∧ (getValue ⟨[], ["/"]⟩ "NAME" (some "fallback") =
        .ok (⟨envSet [] (toUpperCase "NAME") "fallback", ["/"]⟩, "fallback")
      ∧ envGet (envSet [] (toUpperCase "NAME") "fallback") (toUpperCase "NAME")
          = some "fallback")
  ∧ getValue ⟨[], ["/"]⟩ "NAME" none =
      .exited 1 ("The \"" ++ toUpperCase "NAME" ++ " environment variable is undefined!")
        ⟨[], ["/"]⟩ :=
  ⟨by decide,
    (c3_default_fallback [] ["/"] "NAME" (by decide) (by decide)
      (fun h => by cases h)).1 "fallback" (by decide),
    (c3_default_fallback [] ["/"] "NAME" (by decide) (by decide)
      (fun h => by cases h)).2⟩

theorem ne_of_truthy_some {s : String} (h : truthy (some s) = true) : s ≠ "" := by
  simpa [truthy] using h

theorem suffix_name_ne (n x : String) : n ++ "_" ++ x ≠ n := by
  intro he
  have hl := congrArg String.length he
  rw [String.length_append, String.length_append] at hl
  have h1 : String.length "_" = 1 := rfl
  omega

/-- The default-or-fatal step of `getValue` produces agreeing outcomes
from two tables that agree away from the written key. -/
theorem resAgree_set_branch (e1 e2 : Env) (fs : List String) (n : String)
    (d : Option String) (msg : String)
    (hagree : ∀ k, k ≠ n → envGet e1 k = envGet e2 k) :
    resAgree
      (if truthy d then Outcome.ok (⟨envSet e1 n (d.getD ""), fs⟩, d.getD "")
       else .exited 1 msg ⟨e1, fs⟩)
      (if truthy d then Outcome.ok (⟨envSet e2 n (d.getD ""), fs⟩, d.getD "")
       else .exited 1 msg ⟨e2, fs⟩) := by
  by_cases hd : truthy d = true
  · rw [if_pos hd, if_pos hd]
    refine ⟨rfl, rfl, ?_⟩
    intro k
    by_cases hk : k = n
    · subst hk
      rw [envGet_envSet_self, envGet_envSet_self]
    · rw [envGet_envSet_ne _ _ _ _ hk, envGet_envSet_ne _ _ _ _ hk]
      exact hagree k hk
  · rw [if_neg hd, if_neg hd]
    exact ⟨rfl, rfl⟩

/-- C9: resolution treats the empty string exactly like an unset variable
at every step — a variable bound to `""` behaves like an absent one
through the suffix and default fallbacks (the outcomes agree in value,
messages and observable table), an empty-string default is treated
exactly like no default, and an unresolved variable with an empty-string
default produces the configuration error. -/
theorem c9_empty_like_unset :
    (∀ (env : Env) (fs : List String) (name : String) (d : Option String),
      envGet env (toUpperCase name) = some "" →
      resAgree (getValue ⟨env, fs⟩ name d)
        (getValue ⟨envDel env (toUpperCase name), fs⟩ name d))
  ∧ (∀ (env : Env) (fs : List String) (name : String),
      getValue ⟨env, fs⟩ name (some "") = getValue ⟨env, fs⟩ name none)
  ∧ (∀ (env : Env) (fs : List String) (name : String), name ≠ "" →
      truthy (envGet env (toUpperCase name)) = false →
      (truthy (envGet env "NODE_ENV") = true →
        truthy (envGet env (toUpperCase name ++ "_"
          ++ toUpperCase ((envGet env "NODE_ENV").getD ""))) = false) →
      getValue ⟨env, fs⟩ name (some "") =
        .exited 1 ("The \"" ++ toUpperCase name ++ " environment variable is undefined!")
          ⟨env, fs⟩) := by
  refine ⟨?_, ?_, ?_⟩
  · intro env fs name d hsome
    by_cases hname : name = ""
    · unfold getValue
      rw [if_pos hname, if_pos hname]
      exact ⟨rfl, rfl⟩
    · have habs1 : truthy (envGet env (toUpperCase name)) = false := by
        rw [hsome]; rfl
      have habs2 : truthy (envGet (envDel env (toUpperCase name))
          (toUpperCase name)) = false := by
        rw [envGet_envDel_self]; rfl
      have hagree : ∀ k, k ≠ toUpperCase name →
          envGet env k = envGet (envDel env (toUpperCase name)) k :=
        fun k hk => (envGet_envDel_ne env (toUpperCase name) k hk).symm
      by_cases hNE : toUpperCase name = "NODE_ENV"
      · -- the variable itself is the mode variable, bound to "": no fallback either way
        have hnode1 : truthy (envGet env "NODE_ENV") = false := by
          rw [← hNE, hsome]; rfl
        have hnode2 : truthy (envGet (envDel env (toUpperCase name)) "NODE_ENV") = false := by
          rw [← hNE, envGet_envDel_self]; rfl
        rw [getValue_unresolved env fs name hname habs1
            (by intro h; rw [hnode1] at h; cases h) d,
          getValue_unresolved (envDel env (toUpperCase name)) fs name hname habs2
            (by intro h; rw [hnode2] at h; cases h) d]
        exact resAgree_set_branch env (envDel env (toUpperCase name)) fs
          (toUpperCase name) d _ hagree
      · have hnodeeq : envGet (envDel env (toUpperCase name)) "NODE_ENV"
            = envGet env "NODE_ENV" :=
          envGet_envDel_ne env (toUpperCase name) "NODE_ENV" (fun he => hNE he.symm)
        by_cases hnode : truthy (envGet env "NODE_ENV") = true
        · -- the suffix fallback runs on both sides
          cases hm : envGet env "NODE_ENV" with
          | none => rw [hm] at hnode; cases hnode
          | some mode =>
            have hmodene : mode ≠ "" := ne_of_truthy_some (hm ▸ hnode)
            have hgetD1 : (envGet env "NODE_ENV").getD "" = mode := by rw [hm]; rfl
            have hgetD2 : (envGet (envDel env (toUpperCase name)) "NODE_ENV").getD ""
                = mode := by rw [hnodeeq, hm]; rfl
            have hMN : toUpperCase name ++ "_" ++ toUpperCase mode ≠ toUpperCase name :=
              suffix_name_ne _ _
            have hsufeq : envGet (envDel env (toUpperCase name))
                (toUpperCase name ++ "_" ++ toUpperCase mode)
                = envGet env (toUpperCase name ++ "_" ++ toUpperCase mode) :=
              envGet_envDel_ne env (toUpperCase name) _ hMN
            by_cases hsu : truthy (envGet env
                (toUpperCase name ++ "_" ++ toUpperCase mode)) = true
            · -- the suffixed entry is truthy: both runs rename it
              cases hs : envGet env (toUpperCase name ++ "_" ++ toUpperCase mode) with
              | none => rw [hs] at hsu; cases hsu
              | some v =>
                have hvne : v ≠ "" := ne_of_truthy_some (hs ▸ hsu)
                rw [getValue_suffix_found env fs name mode v hname habs1 hm hmodene hs hvne d,
                  getValue_suffix_found (envDel env (toUpperCase name)) fs name mode v hname
                    habs2 (by rw [hnodeeq]; exact hm) hmodene
                    (by rw [hsufeq]; exact hs) hvne d]
                refine ⟨rfl, rfl, ?_⟩
                intro k
                by_cases hk1 : k = toUpperCase name ++ "_" ++ toUpperCase mode
                · subst hk1
                  rw [envGet_envDel_self, envGet_envDel_self]
                · rw [envGet_envDel_ne _ _ _ hk1, envGet_envDel_ne _ _ _ hk1]
                  by_cases hk2 : k = toUpperCase name
                  · subst hk2
                    rw [envGet_envSet_self, envGet_envSet_self]
                  · rw [envGet_envSet_ne _ _ _ _ hk2, envGet_envSet_ne _ _ _ _ hk2,
                      envGet_envDel_ne _ _ _ hk2]
            · -- the suffixed entry is falsy: both runs fall through to the default step
              have hsuf1 : truthy (envGet env
                  (toUpperCase name ++ "_" ++ toUpperCase mode)) = false := by
                simpa using hsu
              rw [getValue_unresolved env fs name hname habs1
                  (by intro _; rw [hgetD1]; exact hsuf1) d,
                getValue_unresolved (envDel env (toUpperCase name)) fs name hname habs2
                  (by intro _; rw [hgetD2, hsufeq]; exact hsuf1) d]
              exact resAgree_set_branch env (envDel env (toUpperCase name)) fs
                (toUpperCase name) d _ hagree
        · -- no mode variable: both runs fall through to the default step
          rw [getValue_unresolved env fs name hname habs1 (fun h => absurd h hnode) d,
            getValue_unresolved (envDel env (toUpperCase name)) fs name hname habs2
              (by intro h; rw [hnodeeq] at h; exact absurd h hnode) d]
          exact resAgree_set_branch env (envDel env (toUpperCase name)) fs
            (toUpperCase name) d _ hagree
  · intro env fs name
    rfl
  · intro env fs name hname habs hsuf
    have h := getValue_unresolved env fs name hname habs hsuf (some "")
    simpa using h

/-- Witness for C9 at concrete inputs: `NAME` bound to the empty string
behaves like the absent `NAME`, and an empty default still yields the
configuration error. -/
theorem c9_empty_like_unset_witness :
    (envGet [("NAME", "")] (toUpperCase "NAME") = some "")
  ∧ resAgree (getValue ⟨[("NAME", "")], ["/"]⟩ "NAME" (some "x"))
      (getValue ⟨envDel [("NAME", "")] (toUpperCase "NAME"), ["/"]⟩ "NAME" (some "x"))
  ∧ getValue ⟨[("NAME", "")], ["/"]⟩ "NAME" (some "") =
      .exited 1 ("The \"" ++ toUpperCase "NAME" ++ " environment variable is undefined!")
        ⟨[("NAME", "")], ["/"]⟩ :=
  ⟨by decide,
    c9_empty_like_unset.1 [("NAME", "")] ["/"] "NAME" (some "x") (by decide),
    c9_empty_like_unset.2.2 [("NAME", "")] ["/"] "NAME" (by decide) (by decide)
      (fun h => by cases h)⟩

/-- C4 counterexample: the repository also contains the earlier variant
`src/index.js`, whose `fatal` throws `new Error(message)`; on the
configuration failure below its resolution surfaces a catchable error
object to the caller instead of terminating the process, contradicting
the claim that the system never throws. -/
theorem c4_counterexample :
    getValue_v0 [] "DB_URL" =
      .error "The \"DB_URL\" environment variable is undefined!" := by
  decide

/-- C4 (amended): in the final variant (part_001), every configuration
error and every predicate failure prints a diagnostic and terminates the
process with exit code 1 — resolution and the predicate steps (including
`isPath(false)`) either succeed or exit(1), and never surface a catchable
exception; the earlier `src/index.js` variant instead throws a catchable
`Error` on every failure.  (The only throwing path in the final variant
is the `mkdirSync` call inside `isPath(true)`, which is neither a
configuration error nor a predicate failure.) -/
theorem c4_fatal_exits :
    (∀ (w : World) (name : String) (d : Option String),
      (∃ a, getValue w name d = .ok a)
      ∨ (∃ m w2, getValue w name d = .exited 1 m w2))
  ∧ (∀ (rt : String → String → Bool) (cwd : String) (w : World) (s : Sess) (p : Pred),
      (∃ a, callStep rt cwd w s (.pred p) = .ok a)
      ∨ (∃ m w2, callStep rt cwd w s (.pred p) = .exited 1 m w2))
  ∧ (∀ (rt : String → String → Bool) (cwd : String) (w : World) (s : Sess),
      (∃ a, callStep rt cwd w s (.isPath false) = .ok a)
      ∨ (∃ m w2, callStep rt cwd w s (.isPath false) = .exited 1 m w2)) := by
  refine ⟨?_, ?_, ?_⟩
  · intro w name d
    by_cases hname : name = ""
    · refine Or.inr ⟨"The \"name\" parameter is required!", w, ?_⟩
      unfold getValue
      rw [if_pos hname]
      rfl
    · have key : ∀ (E : Env × Option String),
          (∃ a, (if (!(truthy E.2) || E.2 == some "") = true then
              (if truthy d = true then
                Outcome.ok ((⟨envSet E.1 (toUpperCase name) (d.getD ""), w.fs⟩ : World),
                  d.getD "")
              else
                fatal ("The \"" ++ toUpperCase name ++ " environment variable is undefined!")
                  ⟨E.1, w.fs⟩)
            else Outcome.ok ((⟨E.1, w.fs⟩ : World), E.2.getD "")) = Outcome.ok a)
          ∨ (∃ m w2, (if (!(truthy E.2) || E.2 == some "") = true then
              (if truthy d = true then
                Outcome.ok ((⟨envSet E.1 (toUpperCase name) (d.getD ""), w.fs⟩ : World),
                  d.getD "")
              else
                fatal ("The \"" ++ toUpperCase name ++ " environment variable is undefined!")
                  ⟨E.1, w.fs⟩)
            else Outcome.ok ((⟨E.1, w.fs⟩ : World), E.2.getD "")) = Outcome.exited 1 m w2) := by
        intro E
        by_cases h1 : (!(truthy E.2) || E.2 == some "") = true
        · rw [if_pos h1]
          by_cases h2 : truthy d = true
          · rw [if_pos h2]
            exact Or.inl ⟨_, rfl⟩
          · rw [if_neg h2]
            exact Or.inr ⟨_, _, rfl⟩
        · rw [if_neg h1]
          exact Or.inl ⟨_, rfl⟩
      unfold getValue
      rw [if_neg hname]
      exact key _
  · intro rt cwd w s p
    rw [callStep_pred_eq]
    by_cases hx : xor (predHolds rt s.value p) s.negate = true
    · rw [if_pos hx]
      exact Or.inl ⟨_, rfl⟩
    · rw [if_neg hx]
      exact Or.inr ⟨_, _, rfl⟩
  · intro rt cwd w s
    simp only [callStep]
    by_cases he : (!(w.fs.contains (pathResolve cwd s.value))) = true
    · rw [if_pos he]
      exact Or.inr ⟨_, _, rfl⟩
    · rw [if_neg he]
      exact Or.inl ⟨_, rfl⟩

/-- C5 counterexample: resolution is case-insensitive, but the session
keeps the name exactly as passed, so the failure diagnostics differ in
case, and `isPath` writes the resolved path under the as-passed name, so
the final environment tables differ as well. -/
theorem c5_counterexample :
    confirmChain rtNone "/app" ⟨[("SERVER_PORT", "4000")], ["/"]⟩ "server_port" none
        [.pred (.isEQ (.num (some 4001)))] =
      .exited 1 "\"server_port\" is 4000 and must be equal to 4001"
        ⟨[("SERVER_PORT", "4000")], ["/"]⟩
  ∧ confirmChain rtNone "/app" ⟨[("SERVER_PORT", "4000")], ["/"]⟩ "SERVER_PORT" none
        [.pred (.isEQ (.num (some 4001)))] =
      .exited 1 "\"SERVER_PORT\" is 4000 and must be equal to 4001"
        ⟨[("SERVER_PORT", "4000")], ["/"]⟩
  ∧ ("\"server_port\" is 4000 and must be equal to 4001"
      ≠ "\"SERVER_PORT\" is 4000 and must be equal to 4001")
  ∧ confirmChain rtNone "/app" ⟨[("LOG_PATH", "lg")], ["/", "/app"]⟩ "log_path" none
        [.isPath true] =
      .ok (⟨[("LOG_PATH", "lg"), ("log_path", "/app/lg")], ["/app/lg", "/", "/app"]⟩,
        ⟨"log_path", "/app/lg", false⟩)
  ∧ confirmChain rtNone "/app" ⟨[("LOG_PATH", "lg")], ["/", "/app"]⟩ "LOG_PATH" none
        [.isPath true] =
      .ok (⟨[("LOG_PATH", "/app/lg")], ["/app/lg", "/", "/app"]⟩,
        ⟨"LOG_PATH", "/app/lg", false⟩) :=
  ⟨by decide, by decide, by decide, by decide, by decide⟩

theorem getValue_toUpperCase (w : World) (name : String) (d : Option String) :
    getValue w name d = getValue w (toUpperCase name) d := by
  unfold getValue
  by_cases hname : name = ""
  · subst hname
    rfl
  · have hname2 : toUpperCase name ≠ "" :=
      fun h => hname ((toUpperCase_eq_empty_iff name).mp h)
    rw [if_neg hname, if_neg hname2]
    simp only [toUpperCase_idem]

theorem runChain_obs (rt : String → String → Bool) (cwd : String) (calls : List Call) :
    ∀ (w1 w2 : World) (s1 s2 : Sess), s1.value = s2.value → s1.negate = s2.negate →
      w1.fs = w2.fs →
      obsOf (runChain rt cwd w1 s1 calls) = obsOf (runChain rt cwd w2 s2 calls) := by
  induction calls with
  | nil =>
    intro w1 w2 s1 s2 hv hn hf
    simp [runChain, obsOf, hv, hn, hf]
  | cons c cs ih =>
    intro w1 w2 s1 s2 hv hn hf
    cases c with
    | not =>
      show obsOf (runChain rt cwd w1 { s1 with negate := !s1.negate } cs)
        = obsOf (runChain rt cwd w2 { s2 with negate := !s2.negate } cs)
      exact ih w1 w2 _ _ hv (by rw [hn]) hf
    | pred p =>
      simp only [runChain]
      rw [callStep_pred_eq, callStep_pred_eq, hv, hn]
      by_cases hx : xor (predHolds rt s2.value p) s2.negate = true
      · rw [if_pos hx, if_pos hx]
        exact ih w1 w2 _ _ rfl rfl hf
      · rw [if_neg hx, if_neg hx]
        simp [obsOf, fatal, hf]
    | isPath force =>
      simp only [runChain]
      simp only [callStep, hv, hf]
      by_cases he : (!(w2.fs.contains (pathResolve cwd s2.value))) = true
      · rw [if_pos he, if_pos he]
        cases force with
        | true =>
          rw [if_pos rfl, if_pos rfl]
          cases hm : mkdirSync w2.fs (pathResolve cwd s2.value) with
          | ok fs2 => exact ih _ _ _ _ rfl rfl rfl
          | error e => rfl
        | false =>
          rfl
      · rw [if_neg he, if_neg he]
        exact ih _ _ _ _ rfl rfl rfl

/-- C5 (amended): the name passed to `confirm` is case-insensitive for
resolution and for every success-or-failure outcome: running any chain
with `confirm(N)` and `confirm(uppercased N)` yields the same resolved
values, negation states, exit codes and filesystem effects.  The
diagnostic messages and the environment table, however, embed the name
exactly as passed (predicate messages interpolate it, and `isPath` writes
under it), so they can differ in case between the two runs. -/
theorem c5_case_insensitive (rt : String → String → Bool) (cwd : String) (w : World)
    (name : String) (d : Option String) (calls : List Call) :
    obsOf (confirmChain rt cwd w name d calls)
      = obsOf (confirmChain rt cwd w (toUpperCase name) d calls) := by
  unfold confirmChain confirm
  rw [getValue_toUpperCase w name d]
  cases hg : getValue w (toUpperCase name) d with
  | ok a =>
    obtain ⟨w2, v⟩ := a
    exact runChain_obs rt cwd calls w2 w2 ⟨name, v, false⟩ ⟨toUpperCase name, v, false⟩
      rfl rfl rfl
  | exited c m w2 => rfl
  | threw m w2 => rfl

end ConfirmEnv
